import Mathlib

/-!
Verification of the text-adventure game engine in `ascii_game.py`.

The Python module is shallowly embedded below: each dataclass becomes a
structure, the mutable `ASCIIGame` object becomes an explicit `GameState`
threaded through the operations, and every Python method that can raise a
KeyError (room-id lookup in the `rooms` dict) returns `Option`.  Python
integers are modelled as `Int`.  `random.choice` over a room's enemy list is
modelled by an explicit `pick : Nat` parameter indexing into the list modulo
its length.  The strings returned by the methods are presentation; the result
of each operation is modelled as an inductive capturing which of the method's
return statements fired, together with the data interpolated into it.
Display-only text (the boxed room art) is abridged to a short tag, since no
operation ever inspects it.
-/

/-- Mirrors `class Direction(Enum)`. -/
inductive Direction
  | north
  | south
  | east
  | west
deriving DecidableEq, Repr

/-- Mirrors `class ItemType(Enum)`. -/
inductive ItemType
  | weapon
  | armor
  | potion
  | key
  | treasure
deriving DecidableEq, Repr

/-- Mirrors `@dataclass class Item`. -/
structure Item where
  name : String
  description : String
  item_type : ItemType
  damage : Int := 0
  defense : Int := 0
  healing : Int := 0
deriving DecidableEq, Repr

/-- An enemy record: the Python source stores enemies as dicts
with keys "name", "health", "damage", "exp". -/
structure Enemy where
  name : String
  health : Int
  damage : Int
  exp : Int
deriving DecidableEq, Repr

/-- Mirrors `@dataclass class Room`.  The `exits` dict becomes an
association list from `Direction` to room identifier. -/
structure Room where
  name : String
  description : String
  exits : List (Direction × String)
  items : List Item
  enemies : List Enemy
  visited : Bool := false
deriving DecidableEq, Repr

/-- Mirrors `@dataclass class Player`. -/
structure Player where
  name : String
  health : Int := 100
  max_health : Int := 100
  inventory : List Item := []
  current_room : String := "entrance"
  gold : Int := 0
  level : Int := 1
  experience : Int := 0
deriving DecidableEq, Repr

/-- The mutable fields of the `ASCIIGame` instance.  The Python `player`
field is `None` before `start_game`; since every operation guards on
`game_started` before touching the player, it is modelled as a default
`Player` value until the game starts. -/
structure GameState where
  player : Player
  game_started : Bool
  game_over : Bool
  rooms : List (String × Room)
  current_enemy : Option Enemy
deriving DecidableEq, Repr

/-- Dict lookup `self.rooms[room_id]`; `none` models a `KeyError`. -/
def lookupRoom : List (String × Room) → String → Option Room
  | [], _ => none
  | (k, r) :: rest, q => if k = q then some r else lookupRoom rest q

/-- In-place mutation of the room stored under `room_id` in the dict. -/
def updateRoom (rooms : List (String × Room)) (room_id : String) (r : Room) :
    List (String × Room) :=
  rooms.map (fun p => if p.1 = room_id then (room_id, r) else p)

/-- Dict membership and lookup `current_room.exits[dir_enum]`. -/
def lookupExit : List (Direction × String) → Direction → Option String
  | [], _ => none
  | (d, t) :: rest, q => if d = q then some t else lookupExit rest q

/-- ASCII lowercasing of one character, as Python  str.lower  acts on the
ASCII-only names this program uses. -/
def lowerChar (c : Char) : Char :=
  let n := c.toNat
  if 65 ≤ n ∧ n ≤ 90 then Char.ofNat (n + 32) else c

/-- Python  .lower()  on a string (ASCII). -/
def strLower (s : String) : String := String.mk (s.data.map lowerChar)

/-- Mirrors `Direction(direction.lower())`: `none` models the `ValueError`. -/
def parseDirection (direction : String) : Option Direction :=
  let l := strLower direction
  if l = "north" then some Direction.north
  else if l = "south" then some Direction.south
  else if l = "east" then some Direction.east
  else if l = "west" then some Direction.west
  else none

/-- Character-list version of matching a pattern at the front of a string. -/
def leadMatch : List Char → List Char → Bool
  | [], _ => true
  | _ :: _, [] => false
  | a :: as, b :: bs => a = b && leadMatch as bs

/-- Character-list version of substring containment. -/
def subMatch (needle : List Char) : List Char → Bool
  | [] => leadMatch needle []
  | c :: rest => leadMatch needle (c :: rest) || subMatch needle rest

/-- Python `needle in hay` on strings: substring containment. -/
def strHasSub (hay needle : String) : Bool :=
  subMatch needle.toList hay.toList

/-- The loop condition `item.name.lower() == item_name.lower()`. -/
def nameMatches (query : String) (i : Item) : Bool :=
  strLower i.name = strLower query

/-- The `use` condition: a POTION whose name contains "health". -/
def isHealingPotion (i : Item) : Bool :=
  (i.item_type = ItemType.potion : Bool) && strHasSub (strLower i.name) "health"

/-- Finds the first item in the list whose name matches `query`
case-insensitively, returning it with the list minus that occurrence.
This models the `for item in ...: if item.name.lower() == ...` loops of
`take` and `use` combined with `.remove(item)`, which removes the first
element equal to the matched one; since the matched item is the first
name match, no earlier element can equal it. -/
def removeFirstMatch (query : String) : List Item → Option (Item × List Item)
  | [] => none
  | i :: rest =>
    if nameMatches query i then some (i, rest)
    else
      match removeFirstMatch query rest with
      | none => none
      | some (m, rest') => some (m, i :: rest')

/-- `sum(item.damage for item in inventory if item.item_type == WEAPON)`. -/
def weaponDamage (inv : List Item) : Int :=
  ((inv.filter (fun i => i.item_type = ItemType.weapon)).map Item.damage).sum

/-- `sum(item.defense for item in inventory if item.item_type == ARMOR)`. -/
def armorDefense (inv : List Item) : Int :=
  ((inv.filter (fun i => i.item_type = ItemType.armor)).map Item.defense).sum

/-- `random.choice(room.enemies)`, determinised by the `pick` oracle:
index `pick % length` into the list.  The fallback value is never reached
on a non-empty list. -/
def spawnChoice (pick : Nat) (es : List Enemy) : Enemy :=
  (es.get? (pick % es.length)).getD { name := "", health := 0, damage := 0, exp := 0 }

/-- Which return statement of `_get_room_description` fired. -/
inductive DescResult
  | notStarted
  | enemyAppears (enemyName : String) (enemyHealth : Int)
  | plain
deriving DecidableEq, Repr

/-- Mirrors `ASCIIGame._get_room_description`.  Marks the room visited and,
when the room has enemy templates and no enemy is active, instantiates a
fresh copy of a randomly chosen template as the current enemy. -/
def get_room_description (pick : Nat) (s : GameState) :
    Option (DescResult × GameState) :=
  if s.game_started = false then some (DescResult.notStarted, s)
  else
    match lookupRoom s.rooms s.player.current_room with
    | none => none
    | some room =>
      let room' := { room with visited := true }
      let s' := { s with rooms := updateRoom s.rooms s.player.current_room room' }
      match s.current_enemy, room.enemies with
      | none, e0 :: rest =>
        let chosen := spawnChoice pick (e0 :: rest)
        some (DescResult.enemyAppears chosen.name chosen.health,
              { s' with current_enemy := some chosen })
      | _, _ => some (DescResult.plain, s')

/-- Mirrors `ASCIIGame.start_game`: resets the player, flags and current
enemy (but not the world's rooms), then renders the starting room, which
runs the room-entry enemy check. -/
def start_game (pick : Nat) (player_name : String) (s : GameState) :
    Option (DescResult × GameState) :=
  let s' : GameState :=
    { s with
      player := { name := player_name }
      game_started := true
      game_over := false
      current_enemy := none }
  get_room_description pick s'

/-- Which return statement of `look` fired; the success case carries the
description outcome, the item names and the exit directions listed. -/
inductive LookResult
  | notStarted
  | looked (desc : DescResult) (itemNames : List String) (exitDirs : List Direction)
deriving DecidableEq, Repr

/-- Mirrors `ASCIIGame.look`.  Note it renders the room description, so it
runs the same enemy-spawn check as `_get_room_description`. -/
def look (pick : Nat) (s : GameState) : Option (LookResult × GameState) :=
  if s.game_started = false then some (LookResult.notStarted, s)
  else
    match lookupRoom s.rooms s.player.current_room with
    | none => none
    | some room =>
      match get_room_description pick s with
      | none => none
      | some (desc, s') =>
        some (LookResult.looked desc (room.items.map Item.name)
                (room.exits.map Prod.fst), s')

/-- Which return statement of `move` fired. -/
inductive MoveResult
  | notStarted
  | inCombat
  | invalidDirection
  | noSuchExit
  | moved (desc : DescResult)
deriving DecidableEq, Repr

/-- True exactly on the success constructor of `MoveResult`. -/
def isMovedResult : MoveResult → Bool
  | MoveResult.moved _ => true
  | _ => false

/-- Mirrors `ASCIIGame.move`: started guard, combat guard, direction
parse, exit lookup, then reassignment of `current_room` followed by the
room-entry rendering (which may spawn an enemy). -/
def move (pick : Nat) (direction : String) (s : GameState) :
    Option (MoveResult × GameState) :=
  if s.game_started = false then some (MoveResult.notStarted, s)
  else
    match s.current_enemy with
    | some _ => some (MoveResult.inCombat, s)
    | none =>
      match parseDirection direction with
      | none => some (MoveResult.invalidDirection, s)
      | some d =>
        match lookupRoom s.rooms s.player.current_room with
        | none => none
        | some current_room =>
          match lookupExit current_room.exits d with
          | none => some (MoveResult.noSuchExit, s)
          | some target =>
            match get_room_description pick
                { s with player := { s.player with current_room := target } } with
            | none => none
            | some (desc, s') => some (MoveResult.moved desc, s')

/-- Which return statement of `take` fired. -/
inductive TakeResult
  | notStarted
  | tookCoins
  | tookChest
  | took (itemName : String)
  | notFound (itemName : String)
deriving DecidableEq, Repr

/-- Mirrors `ASCIIGame.take`: first case-insensitive name match in the
current room's item list moves to the inventory; the two recognised
treasure names additionally grant gold. -/
def take (item_name : String) (s : GameState) : Option (TakeResult × GameState) :=
  if s.game_started = false then some (TakeResult.notStarted, s)
  else
    match lookupRoom s.rooms s.player.current_room with
    | none => none
    | some room =>
      match removeFirstMatch item_name room.items with
      | none => some (TakeResult.notFound item_name, s)
      | some (item, rest) =>
        let player' := { s.player with inventory := s.player.inventory ++ [item] }
        let s' : GameState :=
          { s with
            player := player'
            rooms := updateRoom s.rooms s.player.current_room
                       { room with items := rest } }
        if item.item_type = ItemType.treasure then
          if item.name = "Gold Coins" then
            some (TakeResult.tookCoins,
                  { s' with player := { player' with gold := player'.gold + 50 } })
          else if item.name = "Treasure Chest" then
            some (TakeResult.tookChest,
                  { s' with player := { player' with gold := player'.gold + 200 } })
          else some (TakeResult.took item.name, s')
        else some (TakeResult.took item.name, s')

/-- Which return statement of `use` fired. -/
inductive UseResult
  | notStarted
  | used (itemName : String) (healing : Int)
  | notUsable (itemName : String)
  | notFound (itemName : String)
deriving DecidableEq, Repr

/-- True exactly on the cannot-use constructor of `UseResult`. -/
def isNotUsableResult : UseResult → Bool
  | UseResult.notUsable _ => true
  | _ => false

/-- Mirrors `ASCIIGame.use`: the first case-insensitive inventory match is
consumed and heals (clamped to `max_health`) only when it is a POTION whose
name contains "health"; any other match is rejected without mutation. -/
def use (item_name : String) (s : GameState) : UseResult × GameState :=
  if s.game_started = false then (UseResult.notStarted, s)
  else
    match removeFirstMatch item_name s.player.inventory with
    | none => (UseResult.notFound item_name, s)
    | some (item, rest) =>
      if isHealingPotion item then
        (UseResult.used item.name item.healing,
         { s with player :=
            { s.player with
              health := min s.player.max_health (s.player.health + item.healing)
              inventory := rest } })
      else (UseResult.notUsable item.name, s)

/-- Which return statement of `attack` fired. -/
inductive AttackResult
  | notStarted
  | noEnemy
  | defeated (enemyName : String) (expGained : Int) (leveledUp : Bool)
  | exchange (enemyName : String) (damageDealt actualDamage enemyHealth playerHealth : Int)
      (playerDefeated : Bool)
deriving DecidableEq, Repr

/-- Mirrors `ASCIIGame.attack`: offensive phase with base damage 5 plus all
carried weapon damage; on a kill, experience award, enemy cleared and a
single level-up check; otherwise the enemy strikes back for
`max(1, damage - total defense)` and the game-over flag is set when the
player's health drops to 0 or below. -/
def attack (s : GameState) : AttackResult × GameState :=
  if s.game_started = false then (AttackResult.notStarted, s)
  else
    match s.current_enemy with
    | none => (AttackResult.noEnemy, s)
    | some enemy =>
      let total_damage : Int := 5 + weaponDamage s.player.inventory
      let enemy' : Enemy := { enemy with health := enemy.health - total_damage }
      if enemy'.health ≤ 0 then
        let p1 : Player :=
          { s.player with experience := s.player.experience + enemy'.exp }
        if p1.experience ≥ p1.level * 50 then
          let p2 : Player :=
            { p1 with
              level := p1.level + 1
              max_health := p1.max_health + 20 }
          (AttackResult.defeated enemy.name enemy'.exp true,
           { s with player := { p2 with health := p2.max_health },
                    current_enemy := none })
        else
          (AttackResult.defeated enemy.name enemy'.exp false,
           { s with player := p1, current_enemy := none })
      else
        let defense : Int := armorDefense s.player.inventory
        let actual_damage : Int := max 1 (enemy'.damage - defense)
        let p' : Player := { s.player with health := s.player.health - actual_damage }
        let over : Bool := if p'.health ≤ 0 then true else s.game_over
        (AttackResult.exchange enemy.name total_damage actual_damage
           enemy'.health p'.health (decide (p'.health ≤ 0)),
         { s with player := p', current_enemy := some enemy', game_over := over })

/-- The numeric payload of the `status` report. -/
structure StatusSnapshot where
  playerName : String
  health : Int
  max_health : Int
  level : Int
  experience : Int
  gold : Int
  attackTotal : Int
  defenseTotal : Int
  roomName : String
deriving DecidableEq, Repr

/-- Which return statement of `status` fired. -/
inductive StatusResult
  | notStarted
  | report (snap : StatusSnapshot)
deriving DecidableEq, Repr

/-- Mirrors `ASCIIGame.status`: a pure read of the player's stats, the
carried weapon/armor totals and the current room's name. -/
def status (s : GameState) : Option StatusResult :=
  if s.game_started = false then some StatusResult.notStarted
  else
    match lookupRoom s.rooms s.player.current_room with
    | none => none
    | some room =>
      some (StatusResult.report
        { playerName := s.player.name
          health := s.player.health
          max_health := s.player.max_health
          level := s.player.level
          experience := s.player.experience
          gold := s.player.gold
          attackTotal := weaponDamage s.player.inventory
          defenseTotal := armorDefense s.player.inventory
          roomName := room.name })

/-- Which return statement of `get_game_state` fired. -/
inductive GameStateResult
  | notStarted
  | gameOverTerminal
  | report (roomName : String) (health max_health level gold : Int)
      (enemy : Option (String × Int))
deriving DecidableEq, Repr

/-- Mirrors `ASCIIGame.get_game_state`: a pure read that reports the
distinguished terminal message once `game_over` is set. -/
def get_game_state (s : GameState) : Option GameStateResult :=
  if s.game_started = false then some GameStateResult.notStarted
  else if s.game_over = true then some GameStateResult.gameOverTerminal
  else
    match lookupRoom s.rooms s.player.current_room with
    | none => none
    | some room =>
      some (GameStateResult.report room.name s.player.health s.player.max_health
              s.player.level s.player.gold
              (s.current_enemy.map (fun e => (e.name, e.health))))

/-- The item placed in the entrance room by `_create_world`. -/
def rustySword : Item :=
  { name := "Rusty Sword", description := "A basic sword with some rust",
    item_type := ItemType.weapon, damage := 5 }

/-- The item placed in the main cavern by `_create_world`. -/
def healthPotion : Item :=
  { name := "Health Potion", description := "Restores 30 health",
    item_type := ItemType.potion, healing := 30 }

/-- Items placed in the goblin camp by `_create_world`. -/
def leatherArmor : Item :=
  { name := "Leather Armor", description := "Basic leather protection",
    item_type := ItemType.armor, defense := 10 }

/-- Treasure item in the goblin camp. -/
def goldCoins : Item :=
  { name := "Gold Coins", description := "Shiny gold coins",
    item_type := ItemType.treasure }

/-- Items placed in the armory by `_create_world`. -/
def steelSword : Item :=
  { name := "Steel Sword", description := "A well-crafted steel blade",
    item_type := ItemType.weapon, damage := 15 }

/-- Second armory item. -/
def ironHelmet : Item :=
  { name := "Iron Helmet", description := "Protective headgear",
    item_type := ItemType.armor, defense := 8 }

/-- Items placed in the treasure room by `_create_world`. -/
def diamondSword : Item :=
  { name := "Diamond Sword", description := "A legendary blade",
    item_type := ItemType.weapon, damage := 25 }

/-- Second treasure-room item. -/
def goldenArmor : Item :=
  { name := "Golden Armor", description := "Magnificent golden protection",
    item_type := ItemType.armor, defense := 20 }

/-- Third treasure-room item. -/
def treasureChest : Item :=
  { name := "Treasure Chest", description := "Filled with gold and jewels",
    item_type := ItemType.treasure }

/-- Enemy template of the main cavern. -/
def caveBat : Enemy := { name := "Cave Bat", health := 20, damage := 8, exp := 15 }

/-- Enemy template of the goblin camp. -/
def goblinWarrior : Enemy :=
  { name := "Goblin Warrior", health := 35, damage := 12, exp := 25 }

/-- Enemy template of the treasure room. -/
def dragonGuardian : Enemy :=
  { name := "Dragon Guardian", health := 100, damage := 20, exp := 100 }

/-- Room "entrance".  The boxed display text is abridged; no operation
inspects it. -/
def entranceRoom : Room :=
  { name := "Cave Entrance", description := "CAVE ENTRANCE art",
    exits := [(Direction.north, "main_cavern")],
    items := [rustySword], enemies := [] }

/-- Room "main_cavern". -/
def mainCavernRoom : Room :=
  { name := "Main Cavern", description := "MAIN CAVERN art",
    exits := [(Direction.north, "treasure_room"), (Direction.south, "entrance"),
              (Direction.east, "goblin_camp"), (Direction.west, "armory")],
    items := [healthPotion], enemies := [caveBat] }

/-- Room "goblin_camp". -/
def goblinCampRoom : Room :=
  { name := "Goblin Camp", description := "GOBLIN CAMP art",
    exits := [(Direction.west, "main_cavern")],
    items := [leatherArmor, goldCoins], enemies := [goblinWarrior] }

/-- Room "armory". -/
def armoryRoom : Room :=
  { name := "Ancient Armory", description := "ANCIENT ARMORY art",
    exits := [(Direction.east, "main_cavern")],
    items := [steelSword, ironHelmet], enemies := [] }

/-- Room "treasure_room". -/
def treasureRoomRoom : Room :=
  { name := "Treasure Chamber", description := "TREASURE CHAMBER art",
    exits := [(Direction.south, "main_cavern")],
    items := [diamondSword, goldenArmor, treasureChest],
    enemies := [dragonGuardian] }

/-- Mirrors `ASCIIGame._create_world`. -/
def create_world : List (String × Room) :=
  [("entrance", entranceRoom),
   ("main_cavern", mainCavernRoom),
   ("goblin_camp", goblinCampRoom),
   ("armory", armoryRoom),
   ("treasure_room", treasureRoomRoom)]

/-- The state built by `ASCIIGame.__init__` (before any `start_game`):
no game in progress, the freshly created world, no enemy.  The Python
`player = None` is modelled by a default `Player`, which no operation
reads before `start_game` sets `game_started`. -/
def initState : GameState :=
  { player := { name := "" }
    game_started := false
    game_over := false
    rooms := create_world
    current_enemy := none }

/-- One user-level operation together with the data it consumes, including
the `pick` oracle for the operations that can spawn an enemy. -/
inductive GameAction
  | startA (pick : Nat) (playerName : String)
  | lookA (pick : Nat)
  | moveA (pick : Nat) (direction : String)
  | takeA (itemName : String)
  | useA (itemName : String)
  | attackA
deriving DecidableEq, Repr

/-- Runs one operation for its state effect; `none` models an uncaught
`KeyError` from a room-id lookup (never reached from `initState`). -/
def applyAction (a : GameAction) (s : GameState) : Option GameState :=
  match a with
  | GameAction.startA pick n => (start_game pick n s).map Prod.snd
  | GameAction.lookA pick => (look pick s).map Prod.snd
  | GameAction.moveA pick d => (move pick d s).map Prod.snd
  | GameAction.takeA n => (take n s).map Prod.snd
  | GameAction.useA n => some (use n s).2
  | GameAction.attackA => some (attack s).2

/-- Runs a list of operations in order. -/
def runActions : List GameAction → GameState → Option GameState
  | [], s => some s
  | a :: rest, s =>
    match applyAction a s with
    | none => none
    | some s' => runActions rest s'

/-- The states reachable from the freshly constructed game by any sequence
of operations. -/
inductive Reachable : GameState → Prop
  | init : Reachable initState
  | step {s s' : GameState} (a : GameAction) :
      Reachable s → applyAction a s = some s' → Reachable s'

/-- Start a session, walk north into the Main Cavern (which spawns the
Cave Bat) and kill it with four attacks (4 x 5 damage against 20 health,
taking 3 retaliations of 8). -/
def traceKillBat : List GameAction :=
  [GameAction.startA 0 "Hero", GameAction.moveA 0 "north",
   GameAction.attackA, GameAction.attackA, GameAction.attackA, GameAction.attackA]

/-- Continue from `traceKillBat`: walk north into the Treasure Chamber
(which spawns the Dragon Guardian, damage 20) and attack four times; the
fourth exchange drops the player from 16 to -4 health, recording game
over. -/
def traceToGameOver : List GameAction :=
  traceKillBat ++ [GameAction.moveA 0 "north",
    GameAction.attackA, GameAction.attackA, GameAction.attackA, GameAction.attackA]

/-- C1 counterexample: after the Dragon Guardian drops the player to -4
health the game-over flag is set, yet a further `attack` is not rejected
with a game-over error: it runs a normal combat exchange, damaging the
enemy (80 to 75) and the player (-4 to -24), mutating the session state. -/
theorem C1_counterexample :
    (runActions traceToGameOver initState).map
      (fun s => (s.game_over, (attack s).1, (attack s).2.player.health,
                 (attack s).2.current_enemy))
    = some (true,
        AttackResult.exchange "Dragon Guardian" 5 20 75 (-24) true,
        -24,
        some { name := "Dragon Guardian", health := 75, damage := 20, exp := 100 }) := by
  decide

/-- C2 counterexample: after the Cave Bat is defeated in the Main Cavern
(no active enemy), a single `look` - with no intervening move - creates a
fresh Cave Bat as the active enemy. -/
theorem C2_counterexample :
    (runActions traceKillBat initState).map (fun s => s.current_enemy) = some none
  ∧ (runActions (traceKillBat ++ [GameAction.lookA 0]) initState).map
      (fun s => s.current_enemy)
    = some (some { name := "Cave Bat", health := 20, damage := 8, exp := 15 }) := by
  exact ⟨by decide, by decide⟩

/-- C3 counterexample: the defeat instant leaves the player at -4 health
with game over recorded, and one further reachable state (a subsequent
attack) exhibits health -24, strictly below 0, so negative health is not
confined to the instant the defeat is recorded. -/
theorem C3_counterexample :
    (runActions traceToGameOver initState).map
      (fun s => (s.game_over, s.player.health)) = some (true, -4)
  ∧ (runActions (traceToGameOver ++ [GameAction.attackA]) initState).map
      (fun s => (s.game_over, s.player.health)) = some (true, -24) := by
  exact ⟨by decide, by decide⟩

/-- C5: in a started session where an active enemy exists, `move` returns
the in-combat rejection for every direction string, valid or not, and the
session state is returned unchanged. -/
theorem C5_move_rejected_in_combat (pick : Nat) (direction : String)
    (s : GameState) (e : Enemy)
    (hs : s.game_started = true) (he : s.current_enemy = some e) :
    move pick direction s = some (MoveResult.inCombat, s) := by
  simp [move, hs, he]

/-- C5 witness: a concrete started state in combat with the Cave Bat
rejects a valid direction with the in-combat error and no state change. -/
theorem C5_move_rejected_in_combat_witness :
    move 0 "north"
      { player := { name := "w", current_room := "main_cavern" },
        game_started := true, game_over := false,
        rooms := create_world, current_enemy := some caveBat }
    = some (MoveResult.inCombat,
        { player := { name := "w", current_room := "main_cavern" },
          game_started := true, game_over := false,
          rooms := create_world, current_enemy := some caveBat }) :=
  C5_move_rejected_in_combat 0 "north" _ caveBat rfl rfl

/-- A started session standing in the Main Cavern with no active enemy. -/
def cavernState : GameState :=
  { player := { name := "w", current_room := "main_cavern" },
    game_started := true, game_over := false,
    rooms := create_world, current_enemy := none }

/-- The Main Cavern session engaged with the Cave Bat. -/
def batFightState : GameState :=
  { cavernState with current_enemy := some caveBat }

/-- C6: one `attack` against an enemy with health H, carrying weapons of
total damage D, leaves the enemy at exactly H - (5 + D); and when that is
at or below zero the template's experience is awarded, the active enemy is
cleared and no retaliation runs, so the player's health is unchanged
unless the level-up fires (which sets it to the new maximum). -/
theorem C6_attack_formula (s : GameState) (e : Enemy)
    (hs : s.game_started = true) (he : s.current_enemy = some e) :
    (0 < e.health - (5 + weaponDamage s.player.inventory) →
        (attack s).2.current_enemy
          = some { e with health := e.health - (5 + weaponDamage s.player.inventory) })
  ∧ (e.health - (5 + weaponDamage s.player.inventory) ≤ 0 →
        (attack s).2.current_enemy = none
      ∧ (attack s).2.player.experience = s.player.experience + e.exp
      ∧ (s.player.experience + e.exp < s.player.level * 50 →
            (attack s).2.player.health = s.player.health)
      ∧ (s.player.level * 50 ≤ s.player.experience + e.exp →
            (attack s).2.player.health = s.player.max_health + 20
          ∧ (attack s).2.player.level = s.player.level + 1
          ∧ (attack s).2.player.max_health = s.player.max_health + 20)) := by
  by_cases hd : e.health - (5 + weaponDamage s.player.inventory) ≤ 0
  · by_cases hl : s.player.experience + e.exp ≥ s.player.level * 50
    · refine ⟨fun hpos => absurd hd (by omega), fun _ => ?_⟩
      simp only [attack, hs, he, hd, hl, if_true, if_pos]
      refine ⟨rfl, rfl, fun h => absurd hl (by omega), fun _ => ⟨rfl, rfl, rfl⟩⟩
    · refine ⟨fun hpos => absurd hd (by omega), fun _ => ?_⟩
      simp only [attack, hs, he]
      rw [if_neg (by simp), if_pos hd, if_neg hl]
      refine ⟨rfl, rfl, fun _ => rfl, fun h => absurd h (by omega)⟩
  · refine ⟨fun _ => ?_, fun h => absurd h hd⟩
    simp only [attack, hs, he]
    rw [if_neg (by simp), if_neg hd]

/-- C6 witness: attacking the Cave Bat (health 20) with no weapons leaves
it active at 20 - (5 + 0) = 15 health. -/
theorem C6_attack_formula_witness :
    (attack batFightState).2.current_enemy
      = some { caveBat with
                health := caveBat.health - (5 + weaponDamage batFightState.player.inventory) } :=
  (C6_attack_formula batFightState caveBat rfl rfl).1 (by decide)

/-- C7: when the enemy survives the offensive phase, the player's health
drops by exactly max(1, enemy damage - total armor defense); in particular
when defense meets or exceeds the enemy's damage the loss is exactly 1. -/
theorem C7_defense_floor (s : GameState) (e : Enemy)
    (hs : s.game_started = true) (he : s.current_enemy = some e)
    (hsurv : 0 < e.health - (5 + weaponDamage s.player.inventory)) :
    (attack s).2.player.health
      = s.player.health - max 1 (e.damage - armorDefense s.player.inventory)
  ∧ (e.damage - armorDefense s.player.inventory ≤ 0 →
        (attack s).2.player.health = s.player.health - 1) := by
  simp only [attack, hs, he]
  rw [if_neg (by simp), if_neg (by omega)]
  refine ⟨rfl, fun h => ?_⟩
  show s.player.health - max 1 (e.damage - armorDefense s.player.inventory)
        = s.player.health - 1
  rw [max_eq_left (by omega)]

/-- The Main Cavern fight with Leather Armor carried: defense 10 against
the Cave Bat's damage 8. -/
def armoredBatFightState : GameState :=
  { player := { name := "w", current_room := "main_cavern",
                inventory := [leatherArmor] },
    game_started := true, game_over := false,
    rooms := create_world, current_enemy := some caveBat }

/-- C7 witness: with defense 10 against damage 8 the player loses exactly
1 health in the exchange. -/
theorem C7_defense_floor_witness :
    (attack armoredBatFightState).2.player.health
      = armoredBatFightState.player.health - 1 :=
  (C7_defense_floor armoredBatFightState caveBat rfl rfl (by decide)).2 (by decide)

/-- C8: a level-1 player with 0 experience who kills an enemy worth at
least 50 experience reaches level 2, gains 20 max health, and is healed to
the new maximum. -/
theorem C8_level_up (s : GameState) (e : Enemy)
    (hs : s.game_started = true) (he : s.current_enemy = some e)
    (hlvl : s.player.level = 1) (hexp : s.player.experience = 0)
    (hkill : e.health - (5 + weaponDamage s.player.inventory) ≤ 0)
    (haward : 50 ≤ e.exp) :
    (attack s).2.player.level = 2
  ∧ (attack s).2.player.max_health = s.player.max_health + 20
  ∧ (attack s).2.player.health = (attack s).2.player.max_health := by
  simp only [attack, hs, he]
  rw [if_neg (by simp), if_pos hkill, if_pos (by omega)]
  refine ⟨?_, rfl, rfl⟩
  show s.player.level + 1 = 2
  omega

/-- A fresh level-1 player carrying enough weapons (total damage 100, so
105 per swing) to fell the Dragon Guardian (health 100, 100 experience)
in one attack. -/
def dragonSlayState : GameState :=
  { player := { name := "w", current_room := "treasure_room",
                inventory := [diamondSword, diamondSword, diamondSword, diamondSword] },
    game_started := true, game_over := false,
    rooms := create_world, current_enemy := some dragonGuardian }

/-- C8 witness: the one-shot dragon kill takes the fresh player to level 2
with max health 120 and full health. -/
theorem C8_level_up_witness :
    (attack dragonSlayState).2.player.level = 2
  ∧ (attack dragonSlayState).2.player.max_health
      = dragonSlayState.player.max_health + 20
  ∧ (attack dragonSlayState).2.player.health
      = (attack dragonSlayState).2.player.max_health :=
  C8_level_up dragonSlayState dragonGuardian rfl rfl rfl rfl (by decide) (by decide)

/-- The first match returned by `removeFirstMatch` is a member of the list
and matches the query name. -/
theorem removeFirstMatch_eq_some {q : String} {l : List Item} {m : Item}
    {rest : List Item} (h : removeFirstMatch q l = some (m, rest)) :
    m ∈ l ∧ nameMatches q m = true := by
  induction l generalizing m rest with
  | nil => simp [removeFirstMatch] at h
  | cons i tl ih =>
    rw [removeFirstMatch] at h
    by_cases hm : nameMatches q i
    · rw [if_pos hm] at h
      cases h
      exact ⟨List.mem_cons_self i tl, hm⟩
    · rw [if_neg hm] at h
      cases hrec : removeFirstMatch q tl with
      | none => rw [hrec] at h; cases h
      | some p =>
        obtain ⟨m', rest'⟩ := p
        rw [hrec] at h
        cases h
        obtain ⟨hmem, hmm⟩ := ih hrec
        exact ⟨List.mem_cons_of_mem i hmem, hmm⟩

/-- Every element of the remainder returned by `removeFirstMatch` was in
the original list. -/
theorem removeFirstMatch_rest_mem {q : String} {l : List Item} {m : Item}
    {rest : List Item} (h : removeFirstMatch q l = some (m, rest)) :
    ∀ x ∈ rest, x ∈ l := by
  induction l generalizing m rest with
  | nil => simp [removeFirstMatch] at h
  | cons i tl ih =>
    rw [removeFirstMatch] at h
    by_cases hm : nameMatches q i
    · rw [if_pos hm] at h
      cases h
      exact fun x hx => List.mem_cons_of_mem i hx
    · rw [if_neg hm] at h
      cases hrec : removeFirstMatch q tl with
      | none => rw [hrec] at h; cases h
      | some p =>
        obtain ⟨m', rest'⟩ := p
        rw [hrec] at h
        cases h
        intro x hx
        rcases List.mem_cons.mp hx with hx | hx
        · exact hx ▸ List.mem_cons_self i tl
        · exact List.mem_cons_of_mem i (ih hrec x hx)

/-- `removeFirstMatch` succeeds whenever some list element matches. -/
theorem removeFirstMatch_isSome {q : String} {l : List Item}
    (h : ∃ i ∈ l, nameMatches q i = true) :
    (removeFirstMatch q l).isSome = true := by
  induction l with
  | nil => simp at h
  | cons i tl ih =>
    rw [removeFirstMatch]
    by_cases hm : nameMatches q i
    · rw [if_pos hm]; rfl
    · rw [if_neg hm]
      obtain ⟨j, hj, hjm⟩ := h
      rcases List.mem_cons.mp hj with hj | hj
      · exact absurd (hj ▸ hjm) hm
      · obtain ⟨p, hp⟩ := Option.isSome_iff_exists.mp (ih ⟨j, hj, hjm⟩)
        obtain ⟨m, r⟩ := p
        rw [hp]
        rfl

/-- C9: in a started session where some inventory item matches the given
name case-insensitively but no matching item is a healing potion, `use`
returns the cannot-use rejection and the whole session state - in
particular the inventory - is unchanged. -/
theorem C9_use_not_usable (s : GameState) (q : String)
    (hs : s.game_started = true)
    (hex : ∃ i ∈ s.player.inventory, nameMatches q i = true)
    (hall : ∀ i ∈ s.player.inventory,
              nameMatches q i = true → isHealingPotion i = false) :
    (use q s).2 = s ∧ isNotUsableResult (use q s).1 = true := by
  obtain ⟨p, hp⟩ := Option.isSome_iff_exists.mp (removeFirstMatch_isSome hex)
  obtain ⟨m, rest⟩ := p
  obtain ⟨hmem, hmm⟩ := removeFirstMatch_eq_some hp
  have hnp : isHealingPotion m = false := hall m hmem hmm
  simp [use, hs, hp, hnp, isNotUsableResult]

/-- A started session whose inventory holds only the Rusty Sword. -/
def swordCarrierState : GameState :=
  { player := { name := "w", inventory := [rustySword] },
    game_started := true, game_over := false,
    rooms := create_world, current_enemy := none }

/-- C9 witness: using "rusty sword" (a weapon, matched case-insensitively)
is rejected as not usable and leaves the state untouched. -/
theorem C9_use_not_usable_witness :
    (use "rusty sword" swordCarrierState).2 = swordCarrierState
  ∧ isNotUsableResult (use "rusty sword" swordCarrierState).1 = true :=
  C9_use_not_usable swordCarrierState "rusty sword" rfl (by decide) (by decide)

/-- Rendering the room description never changes the player record. -/
theorem grd_player_eq {pick : Nat} {s : GameState} {r : DescResult} {s' : GameState}
    (h : get_room_description pick s = some (r, s')) : s'.player = s.player := by
  unfold get_room_description at h
  split at h
  · cases h; rfl
  · split at h
    · cases h
    · split at h
      · cases h; rfl
      · cases h; rfl

/-- Rendering the room description succeeds whenever the game is started
and the current room id resolves. -/
theorem grd_isSome (pick : Nat) (s : GameState) (room : Room)
    (hs : s.game_started = true)
    (hr : lookupRoom s.rooms s.player.current_room = some room) :
    (get_room_description pick s).isSome = true := by
  simp only [get_room_description, hs, hr]
  rcases s.current_enemy with _ | e <;> rcases hre : room.enemies with _ | ⟨e0, tl⟩ <;> simp

/-- C4: in a started session with no active enemy, `move` follows a
defined exit to exactly its target room id, rejects an unparseable
direction with the invalid-direction error and no state change, and
rejects a defined direction with no exit with the no-such-exit error and
no state change. -/
theorem C4_move_navigation (pick : Nat) (dstr : String) (s : GameState) (room : Room)
    (hs : s.game_started = true) (hne : s.current_enemy = none)
    (hr : lookupRoom s.rooms s.player.current_room = some room) :
    (∀ d target troom, parseDirection dstr = some d →
        lookupExit room.exits d = some target →
        lookupRoom s.rooms target = some troom →
        (move pick dstr s).map
          (fun p => (isMovedResult p.1, p.2.player.current_room)) = some (true, target))
  ∧ (parseDirection dstr = none →
        move pick dstr s = some (MoveResult.invalidDirection, s))
  ∧ (∀ d, parseDirection dstr = some d → lookupExit room.exits d = none →
        move pick dstr s = some (MoveResult.noSuchExit, s)) := by
  refine ⟨?_, ?_, ?_⟩
  · intro d target troom hd ht htr
    simp only [move, hs, hne, hd, hr, ht]
    rw [if_neg (by simp)]
    split
    · next heq =>
      have hsome := grd_isSome pick
        { player := { name := s.player.name, health := s.player.health,
                      max_health := s.player.max_health, inventory := s.player.inventory,
                      current_room := target, gold := s.player.gold,
                      level := s.player.level, experience := s.player.experience },
          game_started := true, game_over := s.game_over,
          rooms := s.rooms, current_enemy := none } troom rfl htr
      rw [heq] at hsome
      simp at hsome
    · next desc s2 heq =>
      have hpl := grd_player_eq heq
      simp [isMovedResult, hpl]
  · intro hd
    simp [move, hs, hne, hd]
  · intro d hd ht
    simp [move, hs, hne, hd, hr, ht]

/-- A started session standing in the Cave Entrance with no active enemy. -/
def entranceState : GameState :=
  { player := { name := "w" }, game_started := true, game_over := false,
    rooms := create_world, current_enemy := none }

/-- C4 witness: from the entrance, moving "north" succeeds and lands in
"main_cavern"; "up" is rejected as invalid; "south" is rejected for lack
of an exit, both leaving the state unchanged. -/
theorem C4_move_navigation_witness :
    (move 0 "north" entranceState).map
      (fun p => (isMovedResult p.1, p.2.player.current_room))
      = some (true, "main_cavern")
  ∧ move 0 "up" entranceState = some (MoveResult.invalidDirection, entranceState)
  ∧ move 0 "south" entranceState = some (MoveResult.noSuchExit, entranceState) := by
  have h := C4_move_navigation 0 "north" entranceState entranceRoom rfl rfl (by decide)
  have h2 := C4_move_navigation 0 "up" entranceState entranceRoom rfl rfl (by decide)
  have h3 := C4_move_navigation 0 "south" entranceState entranceRoom rfl rfl (by decide)
  exact ⟨h.1 Direction.north "main_cavern" mainCavernRoom (by decide) (by decide) (by decide),
         h2.2.1 (by decide),
         h3.2.2 Direction.south (by decide) (by decide)⟩

/-- The randomly chosen template always comes from the room's list. -/
theorem spawnChoice_mem (pick : Nat) (e0 : Enemy) (rest : List Enemy) :
    spawnChoice pick (e0 :: rest) ∈ e0 :: rest := by
  unfold spawnChoice
  have hlt : pick % (e0 :: rest).length < (e0 :: rest).length :=
    Nat.mod_lt _ (by simp)
  rw [List.get?_eq_get hlt]
  exact List.get_mem _ _ _

/-- Rendering the description of a room with enemy templates while no
enemy is active always instantiates the chosen template as the active
enemy. -/
theorem grd_spawns (pick : Nat) (s : GameState) (room : Room)
    (hs : s.game_started = true) (hno : s.current_enemy = none)
    (hr : lookupRoom s.rooms s.player.current_room = some room)
    (hne : room.enemies ≠ []) :
    get_room_description pick s
      = some (DescResult.enemyAppears (spawnChoice pick room.enemies).name
                (spawnChoice pick room.enemies).health,
          { s with
            rooms := updateRoom s.rooms s.player.current_room
                       { room with visited := true },
            current_enemy := some (spawnChoice pick room.enemies) }) := by
  simp only [get_room_description, hs, hno, hr]
  rw [if_neg (by simp)]
  cases hre : room.enemies with
  | nil => exact absurd hre hne
  | cons e0 tl => rfl

/-- C2 amended: re-querying the current room's description via `look`
when the room's template list is non-empty and no enemy is active DOES
create a new active enemy - the spawn check runs on every description
query, not only on an arrival transition - and the spawned enemy is a
fresh copy of one of the room's templates. -/
theorem C2_look_respawns (pick : Nat) (s : GameState) (room : Room)
    (hs : s.game_started = true) (hno : s.current_enemy = none)
    (hr : lookupRoom s.rooms s.player.current_room = some room)
    (hne : room.enemies ≠ []) :
    look pick s
      = some (LookResult.looked
          (DescResult.enemyAppears (spawnChoice pick room.enemies).name
            (spawnChoice pick room.enemies).health)
          (room.items.map Item.name) (room.exits.map Prod.fst),
        { s with
          rooms := updateRoom s.rooms s.player.current_room
                     { room with visited := true },
          current_enemy := some (spawnChoice pick room.enemies) })
  ∧ spawnChoice pick room.enemies ∈ room.enemies := by
  constructor
  · simp only [look, hs, hr]
    rw [if_neg (by simp), grd_spawns pick s room hs hno hr hne, hs]
  · cases hre : room.enemies with
    | nil => exact absurd hre hne
    | cons e0 tl => exact hre ▸ spawnChoice_mem pick e0 tl

/-- C2 amended witness: standing in the Main Cavern with no active enemy,
a `look` spawns the Cave Bat again. -/
theorem C2_look_respawns_witness :
    (look 0 cavernState).map (fun p => p.2.current_enemy) = some (some caveBat) := by
  have h := C2_look_respawns 0 cavernState mainCavernRoom rfl rfl (by decide) (by decide)
  rw [h.1]
  rfl

/-- C10: `attack` never modifies the room dictionary (templates, items and
exits included) - the active enemy is a detached copy - and a room whose
template list is non-empty spawns a fresh template copy, at full template
health, whenever its description is rendered with no enemy active. -/
theorem C10_attack_world_frame (s t : GameState) (pick : Nat) (room : Room)
    (hs : t.game_started = true) (hno : t.current_enemy = none)
    (hr : lookupRoom t.rooms t.player.current_room = some room)
    (hne : room.enemies ≠ []) :
    (attack s).2.rooms = s.rooms
  ∧ get_room_description pick t
      = some (DescResult.enemyAppears (spawnChoice pick room.enemies).name
                (spawnChoice pick room.enemies).health,
          { t with
            rooms := updateRoom t.rooms t.player.current_room
                       { room with visited := true },
            current_enemy := some (spawnChoice pick room.enemies) })
  ∧ spawnChoice pick room.enemies ∈ room.enemies := by
  refine ⟨?_, grd_spawns pick t room hs hno hr hne, ?_⟩
  · unfold attack
    split
    · rfl
    · split
      · rfl
      · dsimp only
        split
        · split
          · rfl
          · rfl
        · rfl
  · cases hre : room.enemies with
    | nil => exact absurd hre hne
    | cons e0 tl => exact hre ▸ spawnChoice_mem pick e0 tl

/-- C10 witness: attacking from the fresh state leaves the room dictionary
untouched, and the Main Cavern's spawn choice is one of its templates. -/
theorem C10_attack_world_frame_witness :
    (attack initState).2.rooms = initState.rooms
  ∧ spawnChoice 0 mainCavernRoom.enemies ∈ mainCavernRoom.enemies := by
  have h := C10_attack_world_frame initState cavernState 0 mainCavernRoom rfl rfl
    (by decide) (by decide)
  exact ⟨h.1, h.2.2⟩

/-- Rendering the room description ignores the game-over flag and
preserves it. -/
theorem grd_game_over_flag (pick : Nat) (s : GameState) :
    get_room_description pick { s with game_over := true }
      = (get_room_description pick s).map
          (fun p => (p.1, { p.2 with game_over := true })) := by
  obtain ⟨player, gs, go, rooms, ce⟩ := s
  cases gs
  · rfl
  · simp only [get_room_description]
    rw [if_neg (by simp), if_neg (by simp)]
    cases hlr : lookupRoom rooms player.current_room with
    | none => rfl
    | some room =>
      dsimp only
      cases ce with
      | some e => rfl
      | none =>
        cases hre : room.enemies with
        | nil => rfl
        | cons e0 tl => rfl

/-- `move` ignores the game-over flag and preserves it. -/
theorem move_game_over_flag (pick : Nat) (dstr : String) (s : GameState) :
    move pick dstr { s with game_over := true }
      = (move pick dstr s).map (fun p => (p.1, { p.2 with game_over := true })) := by
  obtain ⟨player, gs, go, rooms, ce⟩ := s
  cases gs
  · rfl
  · simp only [move]
    rw [if_neg (by simp), if_neg (by simp)]
    cases ce with
    | some e => rfl
    | none =>
      dsimp only
      cases hd : parseDirection dstr with
      | none => rfl
      | some dir =>
        dsimp only
        cases hlr : lookupRoom rooms player.current_room with
        | none => rfl
        | some room =>
          dsimp only
          cases ht : lookupExit room.exits dir with
          | none => rfl
          | some target =>
            dsimp only
            rw [grd_game_over_flag pick
              ⟨{ player with current_room := target }, true, go, rooms, none⟩]
            cases hg : get_room_description pick
                ⟨{ player with current_room := target }, true, go, rooms, none⟩ with
            | none => rfl
            | some pr =>
              obtain ⟨desc, s2⟩ := pr
              rfl

/-- `take` ignores the game-over flag and preserves it. -/
theorem take_game_over_flag (tname : String) (s : GameState) :
    take tname { s with game_over := true }
      = (take tname s).map (fun p => (p.1, { p.2 with game_over := true })) := by
  obtain ⟨player, gs, go, rooms, ce⟩ := s
  cases gs
  · rfl
  · simp only [take]
    rw [if_neg (by simp), if_neg (by simp)]
    cases hlr : lookupRoom rooms player.current_room with
    | none => rfl
    | some room =>
      dsimp only
      cases hrm : removeFirstMatch tname room.items with
      | none => rfl
      | some pr =>
        obtain ⟨item, rest⟩ := pr
        dsimp only
        split_ifs <;> rfl

/-- `use` ignores the game-over flag and preserves it. -/
theorem use_game_over_flag (uname : String) (s : GameState) :
    use uname { s with game_over := true }
      = ((use uname s).1, { (use uname s).2 with game_over := true }) := by
  obtain ⟨player, gs, go, rooms, ce⟩ := s
  cases gs
  · rfl
  · simp only [use]
    rw [if_neg (by simp), if_neg (by simp)]
    cases hrm : removeFirstMatch uname player.inventory with
    | none => rfl
    | some pr =>
      obtain ⟨item, rest⟩ := pr
      dsimp only
      split_ifs <;> rfl

/-- `attack` ignores the game-over flag and preserves it. -/
theorem attack_game_over_flag (s : GameState) :
    attack { s with game_over := true }
      = ((attack s).1, { (attack s).2 with game_over := true }) := by
  obtain ⟨player, gs, go, rooms, ce⟩ := s
  cases gs
  · rfl
  · simp only [attack]
    rw [if_neg (by simp), if_neg (by simp)]
    cases ce with
    | none => rfl
    | some e =>
      dsimp only
      split_ifs <;> rfl

/-- `status` never reads the game-over flag. -/
theorem status_game_over_flag (s : GameState) :
    status { s with game_over := true } = status s := by
  obtain ⟨player, gs, go, rooms, ce⟩ := s
  cases gs <;> rfl

/-- `get_game_state` reports the distinguished terminal result once the
game-over flag is set (after the started guard). -/
theorem ggs_game_over_flag (s : GameState) :
    get_game_state { s with game_over := true }
      = (if s.game_started = false then some GameStateResult.notStarted
         else some GameStateResult.gameOverTerminal) := by
  obtain ⟨player, gs, go, rooms, ce⟩ := s
  cases gs <;> rfl

/-- C1 amended: recording game over does NOT gate the mutating operations.
With the game-over flag set, `move`, `take`, `use` and `attack` behave
exactly as they would without it (no game-over rejection exists in any of
their result types, and the session state evolves as in normal play,
keeping the flag); among the read-only queries, `status` still returns its
normal payload and only `get_game_state` reports the terminal state. -/
theorem C1_game_over_not_enforced (pick : Nat) (dstr tname uname : String)
    (s : GameState) :
    move pick dstr { s with game_over := true }
      = (move pick dstr s).map (fun p => (p.1, { p.2 with game_over := true }))
  ∧ take tname { s with game_over := true }
      = (take tname s).map (fun p => (p.1, { p.2 with game_over := true }))
  ∧ use uname { s with game_over := true }
      = ((use uname s).1, { (use uname s).2 with game_over := true })
  ∧ attack { s with game_over := true }
      = ((attack s).1, { (attack s).2 with game_over := true })
  ∧ status { s with game_over := true } = status s
  ∧ get_game_state { s with game_over := true }
      = (if s.game_started = false then some GameStateResult.notStarted
         else some GameStateResult.gameOverTerminal) :=
  ⟨move_game_over_flag pick dstr s, take_game_over_flag tname s,
   use_game_over_flag uname s, attack_game_over_flag s,
   status_game_over_flag s, ggs_game_over_flag s⟩

/-- Every item of the list has non-negative healing. -/
def itemsOk (l : List Item) : Prop := ∀ i ∈ l, 0 ≤ i.healing

/-- Every item stored in any room of the dictionary has non-negative
healing. -/
def roomsOk (rs : List (String × Room)) : Prop := ∀ p ∈ rs, itemsOk p.2.items

/-- The health invariant, strengthened with the facts needed to push it
through every operation: health never exceeds the maximum, health is
positive unless game over has been recorded, and all items in play heal
by a non-negative amount. -/
def GameInv (s : GameState) : Prop :=
  s.player.health ≤ s.player.max_health
  ∧ (s.game_over = true ∨ 0 < s.player.health)
  ∧ itemsOk s.player.inventory
  ∧ roomsOk s.rooms

/-- A successful room lookup lands on a room covered by `roomsOk`. -/
theorem roomsOk_lookup {rs : List (String × Room)} {q : String} {r : Room}
    (hok : roomsOk rs) (h : lookupRoom rs q = some r) : itemsOk r.items := by
  induction rs with
  | nil => simp [lookupRoom] at h
  | cons p tl ih =>
    obtain ⟨k, r0⟩ := p
    rw [lookupRoom] at h
    by_cases hk : k = q
    · rw [if_pos hk] at h
      cases h
      exact hok _ (List.mem_cons_self _ _)
    · rw [if_neg hk] at h
      exact ih (fun p hp => hok p (List.mem_cons_of_mem _ hp)) h

/-- Replacing a room with one whose items are covered preserves
`roomsOk`. -/
theorem roomsOk_update {rs : List (String × Room)} {q : String} {r : Room}
    (hok : roomsOk rs) (hr : itemsOk r.items) : roomsOk (updateRoom rs q r) := by
  intro p hp
  obtain ⟨p0, hp0, hfp⟩ := List.mem_map.mp hp
  by_cases h : p0.1 = q
  · rw [if_pos h] at hfp
    rw [← hfp]
    exact hr
  · rw [if_neg h] at hfp
    rw [← hfp]
    exact hok p0 hp0

/-- The room-description rendering preserves the invariant. -/
theorem grd_inv {pick : Nat} {s : GameState} {r : DescResult} {s' : GameState}
    (hInv : GameInv s) (h : get_room_description pick s = some (r, s')) :
    GameInv s' := by
  unfold get_room_description at h
  split at h
  · cases h; exact hInv
  · split at h
    · cases h
    · next room hlr =>
      have hro0 : itemsOk room.items := roomsOk_lookup hInv.2.2.2 hlr
      have hro : itemsOk ({ room with visited := true } : Room).items := hro0
      split at h
      · cases h
        exact ⟨hInv.1, hInv.2.1, hInv.2.2.1, roomsOk_update hInv.2.2.2 hro⟩
      · cases h
        exact ⟨hInv.1, hInv.2.1, hInv.2.2.1, roomsOk_update hInv.2.2.2 hro⟩

/-- `start_game` establishes the invariant (given a covered world). -/
theorem start_inv {pick : Nat} {n : String} {s : GameState} {r : DescResult}
    {s' : GameState} (hInv : GameInv s) (h : start_game pick n s = some (r, s')) :
    GameInv s' := by
  unfold start_game at h
  refine grd_inv ⟨?_, Or.inr ?_, ?_, ?_⟩ h
  · show (100 : Int) ≤ 100
    decide
  · show (0 : Int) < 100
    decide
  · exact fun i hi => absurd hi (List.not_mem_nil i)
  · exact hInv.2.2.2

/-- `look` preserves the invariant. -/
theorem look_inv {pick : Nat} {s : GameState} {r : LookResult} {s' : GameState}
    (hInv : GameInv s) (h : look pick s = some (r, s')) : GameInv s' := by
  unfold look at h
  split at h
  · cases h; exact hInv
  · split at h
    · cases h
    · split at h
      · cases h
      · next desc s2 heq =>
        cases h
        exact grd_inv hInv heq

/-- `move` preserves the invariant. -/
theorem move_inv {pick : Nat} {dstr : String} {s : GameState} {r : MoveResult}
    {s' : GameState} (hInv : GameInv s) (h : move pick dstr s = some (r, s')) :
    GameInv s' := by
  unfold move at h
  split at h
  · cases h; exact hInv
  · split at h
    · cases h; exact hInv
    · split at h
      · cases h; exact hInv
      · next dir hdir =>
        split at h
        · cases h
        · next room hroom =>
          split at h
          · cases h; exact hInv
          · next target htarget =>
            split at h
            · cases h
            · next desc s2 heq =>
              cases h
              have hmid : GameInv
                  { player := { s.player with current_room := target },
                    game_started := s.game_started, game_over := s.game_over,
                    rooms := s.rooms, current_enemy := s.current_enemy } :=
                ⟨hInv.1, hInv.2.1, hInv.2.2.1, hInv.2.2.2⟩
              exact grd_inv hmid heq

/-- `take` preserves the invariant. -/
theorem take_inv {tname : String} {s : GameState} {r : TakeResult}
    {s' : GameState} (hInv : GameInv s) (h : take tname s = some (r, s')) :
    GameInv s' := by
  unfold take at h
  split at h
  · cases h; exact hInv
  · split at h
    · cases h
    · next room hlr =>
      split at h
      · cases h; exact hInv
      · next item rest hrm =>
        have hroom : itemsOk room.items := roomsOk_lookup hInv.2.2.2 hlr
        have hitem : 0 ≤ item.healing := hroom item (removeFirstMatch_eq_some hrm).1
        have hrest0 : itemsOk rest :=
          fun x hx => hroom x (removeFirstMatch_rest_mem hrm x hx)
        have hinv' : itemsOk (s.player.inventory ++ [item]) := by
          intro x hx
          rcases List.mem_append.mp hx with hx | hx
          · exact hInv.2.2.1 x hx
          · rw [List.mem_singleton.mp hx]
            exact hitem
        have hrest : itemsOk ({ room with items := rest } : Room).items := hrest0
        have hrooms' : roomsOk (updateRoom s.rooms s.player.current_room
            { room with items := rest }) :=
          roomsOk_update hInv.2.2.2 hrest
        split at h
        · split at h
          · cases h
            exact ⟨hInv.1, hInv.2.1, hinv', hrooms'⟩
          · split at h
            · cases h
              exact ⟨hInv.1, hInv.2.1, hinv', hrooms'⟩
            · cases h
              exact ⟨hInv.1, hInv.2.1, hinv', hrooms'⟩
        · cases h
          exact ⟨hInv.1, hInv.2.1, hinv', hrooms'⟩

/-- `use` preserves the invariant: healing clamps at `max_health` and a
healing amount is never negative for items in play. -/
theorem use_inv {uname : String} {s : GameState} (hInv : GameInv s) :
    GameInv (use uname s).2 := by
  unfold use
  split
  · exact hInv
  · split
    · exact hInv
    · next item rest hrm =>
      split
      · have hitem : 0 ≤ item.healing :=
          hInv.2.2.1 item (removeFirstMatch_eq_some hrm).1
        have hrest : itemsOk rest :=
          fun x hx => hInv.2.2.1 x (removeFirstMatch_rest_mem hrm x hx)
        refine ⟨min_le_left _ _, ?_, hrest, hInv.2.2.2⟩
        rcases hInv.2.1 with hover | hpos
        · exact Or.inl hover
        · refine Or.inr ?_
          have hle : s.player.health
              ≤ min s.player.max_health (s.player.health + item.healing) :=
            le_min hInv.1 (by omega)
          show 0 < min s.player.max_health (s.player.health + item.healing)
          omega
      · exact hInv

/-- `attack` preserves the invariant: the chip damage keeps health below
the maximum, a level-up heals exactly to the new maximum, and health can
only reach 0 or below in the same step that records game over. -/
theorem attack_inv {s : GameState} (hInv : GameInv s) : GameInv (attack s).2 := by
  unfold attack
  split
  · exact hInv
  · split
    · exact hInv
    · next e hce =>
      dsimp only
      split
      · split
        · refine ⟨le_refl _, ?_, hInv.2.2.1, hInv.2.2.2⟩
          rcases hInv.2.1 with hover | hpos
          · exact Or.inl hover
          · have h1 := hInv.1
            refine Or.inr ?_
            show 0 < s.player.max_health + 20
            omega
        · exact ⟨hInv.1, hInv.2.1, hInv.2.2.1, hInv.2.2.2⟩
      · refine ⟨?_, ?_, hInv.2.2.1, hInv.2.2.2⟩
        · have h1 : (1 : Int) ≤ max 1 (e.damage - armorDefense s.player.inventory) :=
            le_max_left _ _
          have h2 := hInv.1
          show s.player.health - max 1 (e.damage - armorDefense s.player.inventory)
              ≤ s.player.max_health
          omega
        · split
          · exact Or.inl rfl
          · next hko =>
            refine Or.inr ?_
            show 0 < s.player.health - max 1 (e.damage - armorDefense s.player.inventory)
            omega

/-- Every operation preserves the invariant. -/
theorem applyAction_inv {a : GameAction} {s s' : GameState}
    (hInv : GameInv s) (h : applyAction a s = some s') : GameInv s' := by
  cases a with
  | startA pick n =>
    simp only [applyAction] at h
    obtain ⟨pr, hpr, hsnd⟩ := Option.map_eq_some'.mp h
    obtain ⟨r, s2⟩ := pr
    cases hsnd
    exact start_inv hInv hpr
  | lookA pick =>
    simp only [applyAction] at h
    obtain ⟨pr, hpr, hsnd⟩ := Option.map_eq_some'.mp h
    obtain ⟨r, s2⟩ := pr
    cases hsnd
    exact look_inv hInv hpr
  | moveA pick d =>
    simp only [applyAction] at h
    obtain ⟨pr, hpr, hsnd⟩ := Option.map_eq_some'.mp h
    obtain ⟨r, s2⟩ := pr
    cases hsnd
    exact move_inv hInv hpr
  | takeA n =>
    simp only [applyAction] at h
    obtain ⟨pr, hpr, hsnd⟩ := Option.map_eq_some'.mp h
    obtain ⟨r, s2⟩ := pr
    cases hsnd
    exact take_inv hInv hpr
  | useA n =>
    simp only [applyAction] at h
    cases h
    exact use_inv hInv
  | attackA =>
    simp only [applyAction] at h
    cases h
    exact attack_inv hInv

/-- Every reachable state satisfies the invariant. -/
theorem reachable_inv {s : GameState} (h : Reachable s) : GameInv s := by
  induction h with
  | init =>
    refine ⟨?_, Or.inr ?_, ?_, ?_⟩
    · show (100 : Int) ≤ 100
      decide
    · show (0 : Int) < 100
      decide
    · exact fun i hi => absurd hi (List.not_mem_nil i)
    · unfold roomsOk itemsOk
      decide
  | step a hr hstep ih => exact applyAction_inv ih hstep

/-- C3 amended: in every reachable state, health never exceeds max_health,
and whenever game over has not been recorded health is strictly positive;
once game over is recorded, health may be non-positive, and later reachable
states can push it further down because operations are not blocked. -/
theorem C3_health_invariant (s : GameState) (h : Reachable s) :
    s.player.health ≤ s.player.max_health
  ∧ (s.game_over = false → 0 < s.player.health) := by
  have hi := reachable_inv h
  refine ⟨hi.1, fun hov => ?_⟩
  rcases hi.2.1 with h1 | h1
  · rw [hov] at h1
    cases h1
  · exact h1

/-- C3 witness: the freshly constructed state is reachable and satisfies
the bounds. -/
theorem C3_health_invariant_witness :
    initState.player.health ≤ initState.player.max_health
  ∧ (initState.game_over = false → 0 < initState.player.health) :=
  C3_health_invariant initState Reachable.init
